import Mathlib

/-!
Shallow embedding of `src/gcs_gallery_generator.py` (GCS Image Gallery
Generator).

The script lists blobs of a bucket, keeps those whose name ends with an
image extension, attaches metadata (basename, a date parsed from the
filename with the `DT` + eight digits convention, and a signed or fallback
URL), sorts the list by filename, and renders a static HTML page whose
script tag embeds the image list as a JSON array.

Modelling conventions:
* A `Blob` carries the observable outputs of the storage client for one
  object.  The result of `blob.generate_signed_url` is an oracle field
  `signed_url : Option String`; `none` means the call raised an exception
  (the `try/except` in `get_image_list` then falls back to the public URL).
* `datetime` values (`time_created`, `updated`) are represented by their
  `isoformat()` string, which is the only way the script observes them.
* Python strings are compared and searched by code points; `String.data`
  (lists of `Char`) plays that role.  `str.lower()` is modelled on code
  points for the ASCII range, which is what the extension check needs.
* `datetime.strptime(s, "%Y%m%d")` on an eight-digit string succeeds
  exactly when the digits split as YYYY·MM·DD with 1 ≤ YYYY, 1 ≤ MM ≤ 12
  and 1 ≤ DD ≤ days of that month (proleptic Gregorian, as `datetime`
  uses); `validYMD8` models that predicate and `renderDate` models
  `strftime("%d %B")` in the C locale (zero-padded day, full month name).
* Machine integers do not overflow here (Python ints are unbounded), so
  sizes and counts are `Int`/`Nat`; Python's `//` (floor division, raising
  `ZeroDivisionError` on a zero divisor) is `pyFloorDiv` built on
  `Int.fdiv`.
-/

namespace GcsGallery

/-- Python truthiness of an optional string: `None` and `""` are falsy. -/
def strTruthy (o : Option String) : Bool :=
  match o with
  | some s => !(s == "")
  | none => false

/-- Python `x or d` for an optional string `x` and a string default `d`. -/
def strOr (o : Option String) (d : String) : String :=
  match o with
  | some s => if s == "" then d else s
  | none => d

/-- Code-point lexicographic strict-or-equal comparison on char lists:
Python's `<=` on `str`, used by `list.sort(key=...)`. -/
def lexLe : List Char → List Char → Bool
  | [], _ => true
  | _ :: _, [] => false
  | a :: as, b :: bs =>
    if a.toNat < b.toNat then true
    else if b.toNat < a.toNat then false
    else lexLe as bs

/-- `os.path.basename`: the part of the object name after the last `/`. -/
def basename (s : String) : String :=
  String.mk ((s.data.reverse.takeWhile (fun c => c != '/')).reverse)

/-- ASCII decimal digit, the `\d` of the regex `DT(\d{8})` on the
filenames at hand. -/
def isDig (c : Char) : Bool := decide (48 ≤ c.toNat ∧ c.toNat ≤ 57)

/-- Numeric value of a digit string (most significant first). -/
def digitsToNat (l : List Char) : Nat :=
  l.foldl (fun acc c => 10 * acc + (c.toNat - 48)) 0

/-- One attempt of the regex `DT(\d{8})` at the head of the list: `D`,
then `T`, then at least eight digits; the group is those eight digits. -/
def matchDT8 (l : List Char) : Option (List Char) :=
  match l with
  | c1 :: c2 :: rest =>
    if c1 == 'D' && c2 == 'T' && (rest.take 8).length == 8 && (rest.take 8).all isDig then
      some (rest.take 8)
    else none
  | _ => none

/-- `re.search(r'DT(\d{8})', ·)`: try every start position left to right
and return the first group found. -/
def findDT : List Char → Option (List Char)
  | [] => none
  | c :: cs =>
    match matchDT8 (c :: cs) with
    | some g => some g
    | none => findDT cs

/-- Proleptic-Gregorian leap year, as `datetime` uses. -/
def isLeapYear (y : Nat) : Bool :=
  y % 4 == 0 && (y % 100 != 0 || y % 400 == 0)

/-- Number of days of month `m` of year `y`. -/
def daysInMonth (y m : Nat) : Nat :=
  if m == 2 then (if isLeapYear y then 29 else 28)
  else if m == 4 || m == 6 || m == 9 || m == 11 then 30
  else 31

/-- Does `datetime.strptime(ds, "%Y%m%d")` succeed on the eight-digit
string `ds`?  The split is YYYY·MM·DD; `datetime` requires a year ≥ 1, a
month 1..12 and a day 1..days of the month. -/
def validYMD8 (ds : List Char) : Bool :=
  let y := digitsToNat (ds.take 4)
  let m := digitsToNat ((ds.drop 4).take 2)
  let d := digitsToNat (ds.drop 6)
  decide (1 ≤ y) && decide (1 ≤ m) && decide (m ≤ 12) &&
    decide (1 ≤ d) && decide (d ≤ daysInMonth y m)

/-- Full English month names, `%B` in the C locale. -/
def monthNames : List String :=
  ["January", "February", "March", "April", "May", "June", "July",
   "August", "September", "October", "November", "December"]

def monthName (m : Nat) : String := monthNames.getD (m - 1) ""

/-- Two-digit zero padding, `%d` for the days at hand. -/
def pad2 (n : Nat) : String := if n < 10 then "0" ++ toString n else toString n

/-- `date_obj.strftime('%d %B')` for the date parsed from the eight-digit
string `ds`, e.g. `"01 August"`. -/
def renderDate (ds : List Char) : String :=
  pad2 (digitsToNat (ds.drop 6)) ++ " " ++ monthName (digitsToNat ((ds.drop 4).take 2))

/-- One object of the bucket listing, as the script observes it after
`blob.reload()`.  `signed_url` is the oracle for
`blob.generate_signed_url(expiration=..., method='GET')`: `some u` means
the call returned `u`, `none` means it raised an exception. -/
structure Blob where
  name : String
  size : Int
  time_created : Option String
  updated : Option String
  content_type : Option String
  md5_hash : Option String
  signed_url : Option String
deriving DecidableEq, Repr

/-- The `image_info` dictionary built for each kept blob. -/
structure ImageInfo where
  name : String
  filename : String
  public_url : String
  size : Int
  created : Option String
  updated : Option String
  content_type : Option String
  md5_hash : Option String
  date_str : Option String
  date_display : String
deriving DecidableEq, Repr

/-- The fallback `f"https://storage.googleapis.com/{bucket_name}/{blob.name}"`. -/
def fallbackUrl (bucket_name : String) (blob_name : String) : String :=
  "https://storage.googleapis.com/" ++ bucket_name ++ "/" ++ blob_name

/-- The `image_extensions` set of the script. -/
def image_extensions : List String :=
  [".jpg", ".jpeg", ".png", ".gif", ".bmp", ".webp", ".tiff", ".svg"]

/-- ASCII lowering of one code point, `str.lower()` on the characters the
extension test can match. -/
def lowerCP (n : Nat) : Nat := if 65 ≤ n ∧ n ≤ 90 then n + 32 else n

/-- Code points of a string, lowercased. -/
def lowerCPs (s : String) : List Nat := s.data.map (fun c => lowerCP c.toNat)

/-- Does the code-point list `l` end with the code-point list `t`? -/
def cpEndsWith (l t : List Nat) : Bool :=
  decide (t.length ≤ l.length) && decide (l.drop (l.length - t.length) = t)

/-- `any(blob.name.lower().endswith(ext) for ext in image_extensions)`. -/
def isImageName (name : String) : Bool :=
  image_extensions.any (fun ext => cpEndsWith (lowerCPs name) (ext.data.map Char.toNat))

/-- The body of the listing loop for one kept blob: basename, the
`DT(\d{8})` date convention, the signed URL with its `try/except`
fallback, and the metadata dictionary. -/
def mkImageInfo (bucket_name : String) (b : Blob) : ImageInfo :=
  let filename := basename b.name
  let dm := findDT filename.data
  let date_str : Option String := dm.map (fun g => String.mk g)
  let date_display : String :=
    match dm with
    | some g => if validYMD8 g then renderDate g else String.mk g
    | none => "Unknown Date"
  let signed : String :=
    match b.signed_url with
    | some u => u
    | none => fallbackUrl bucket_name b.name
  ⟨b.name, filename, signed, b.size, b.time_created, b.updated,
    b.content_type, b.md5_hash, date_str, date_display⟩

/-- `get_image_list`: keep the blobs whose name (lowercased) ends with an
image extension, build the metadata dictionary of each, and sort by the
`filename` key.  `blobs` is the listing
`self.bucket.list_blobs(prefix=self.folder_path)` in listing order. -/
def get_image_list (bucket_name : String) (blobs : List Blob) : List ImageInfo :=
  ((blobs.filter (fun b => isImageName b.name)).map (mkImageInfo bucket_name)).mergeSort
    (fun a b => lexLe a.filename.data b.filename.data)

/-- A JSON value as the script produces them: the embedded entries hold
strings, integers and (for a missing `created`) `null`. -/
inductive JValue where
  | null
  | str (s : String)
  | num (n : Int)
deriving DecidableEq, Repr

/-- `s.replace(target, repl)` for a one-character target. -/
def replaceAllChar (target : Char) (repl : List Char) : List Char → List Char
  | [] => []
  | c :: cs => (if c == target then repl else [c]) ++ replaceAllChar target repl cs

/-- The script's manual pre-escaping
`.replace('\\', '\\\\').replace('"', '\\"')` applied to `filename` and
`public_url` before the dictionary is handed to `json.dumps`. -/
def pyJsonEscape (s : String) : String :=
  String.mk (replaceAllChar '"' ['\\', '"'] (replaceAllChar '\\' ['\\', '\\'] s.data))

/-- `json.dumps` escaping of one character of a string value (the inputs
at hand are printable ASCII, where only `"` and `\` are rewritten). -/
def jsonEscapeChar (c : Char) : List Char :=
  if c == '"' then ['\\', '"']
  else if c == '\\' then ['\\', '\\']
  else [c]

/-- A JSON string literal: quote, escape, quote. -/
def jsonQuote (s : String) : String :=
  "\"" ++ String.mk (s.data.flatMap jsonEscapeChar) ++ "\""

/-- `json.dumps` of one value. -/
def jdumpValue : JValue → String
  | .null => "null"
  | .str s => jsonQuote s
  | .num n => toString n

/-- `json.dumps` of one object (default separators `', '` and `': '`,
keys in insertion order). -/
def jdumpObj (o : List (String × JValue)) : String :=
  "\x7b" ++ String.intercalate ", " (o.map (fun kv => jsonQuote kv.1 ++ ": " ++ jdumpValue kv.2)) ++ "\x7d"

/-- `json.dumps` of the array of already-dumped objects. -/
def jdumpArr (elems : List String) : String :=
  "[" ++ String.intercalate ", " elems ++ "]"

/-- The image dictionary as `generate_html_gallery` reads it.  The method
guards `filename`, `public_url`, `created`, `content_type`, `date_str`
and `date_display` against `None` (and, through Python truthiness,
against `""`), so those fields are optional here; `size` is the integer
`blob.size` and is passed through unguarded. -/
structure GalleryImage where
  filename : Option String
  public_url : Option String
  size : Int
  created : Option String
  content_type : Option String
  date_str : Option String
  date_display : Option String
deriving DecidableEq, Repr

/-- The body of the `images_for_js` loop for one image: the pre-escaping
of `public_url` and `filename`, and the defaults of the other fields. -/
def toJsEntry (img : GalleryImage) : List (String × JValue) :=
  let public_url : Option String :=
    if strTruthy img.public_url then some (pyJsonEscape (img.public_url.getD ""))
    else img.public_url
  [("filename",
     JValue.str (if strTruthy img.filename then pyJsonEscape (img.filename.getD "") else "")),
   ("public_url", JValue.str (strOr public_url "")),
   ("size", JValue.num img.size),
   ("created",
     match img.created with
     | some c => JValue.str c
     | none => JValue.null),
   ("content_type", JValue.str (strOr img.content_type "image/unknown")),
   ("date_str", JValue.str (strOr img.date_str "")),
   ("date_display", JValue.str (strOr img.date_display "Unknown Date"))]

/-- The `images_for_js` list, built by appending in input order. -/
def images_for_js (images : List GalleryImage) : List (List (String × JValue)) :=
  images.map toJsEntry

/-- `json.dumps(images_for_js)`. -/
def imagesJsonDump (images : List GalleryImage) : String :=
  jdumpArr ((images_for_js images).map jdumpObj)

/-- The keyword arguments of `template.render(...)`: the values that the
Jinja template substitutes verbatim into the generated HTML page
(`{{ title }}`, `{{ total_images }}`, `{{ images_per_page }}`,
`{{ total_pages }}` and `{{ images_json|safe }}`). -/
structure RenderArgs where
  title : String
  total_images : Nat
  images_per_page : Int
  total_pages : Int
  images_json : String
deriving DecidableEq, Repr

/-- Python `a // b` on integers: floor division, raising
`ZeroDivisionError` when `b = 0`. -/
def pyFloorDiv (a b : Int) : Except String Int :=
  if b = 0 then Except.error "ZeroDivisionError: integer division or modulo by zero"
  else Except.ok (Int.fdiv a b)

/-- `generate_html_gallery(images, output_file, images_per_page, title)`,
up to the `template.render(...)` call: computes
`total_pages = (len(images) + images_per_page - 1) // images_per_page`
and the embedded JSON, and returns the values rendered into the page. -/
def generate_html_gallery (images : List GalleryImage) (images_per_page : Int)
    (title : String) : Except String RenderArgs :=
  match pyFloorDiv ((images.length : Int) + images_per_page - 1) images_per_page with
  | Except.error e => Except.error e
  | Except.ok total_pages =>
    Except.ok ⟨title, images.length, images_per_page, total_pages, imagesJsonDump images⟩

/-- The two-character JSON escapes, each mapped to the character it
names (`\uXXXX` is not needed for the strings at hand and is rejected,
as is any unknown escape). -/
def escapeTable : List (Char × Char) :=
  [('"', '"'), ('\\', '\\'), ('/', '/'),
   ('b', Char.ofNat 8), ('f', Char.ofNat 12), ('n', Char.ofNat 10),
   ('r', Char.ofNat 13), ('t', Char.ofNat 9)]

/-- The character named by a JSON backslash escape. -/
def unescapeChar (c : Char) : Option Char := escapeTable.lookup c

/-- Unescape the body of a JSON string literal; `none` on a bare `"`, a
trailing `\` or an unknown escape. -/
def jsonUnescape : List Char → Option (List Char)
  | [] => some []
  | c :: rest =>
    if c == '\\' then
      match rest with
      | [] => none
      | e :: rest2 =>
        match unescapeChar e with
        | some ch => (jsonUnescape rest2).map (fun l => ch :: l)
        | none => none
    else if c == '"' then none
    else (jsonUnescape rest).map (fun l => c :: l)

/-- Parse a JSON string literal (as a JSON consumer of the generated page
does): an opening quote, an escaped body, a closing quote. -/
def parseJsonStringLit (s : String) : Option String :=
  match s.data with
  | '"' :: rest =>
    match rest.reverse with
    | '"' :: mid => (jsonUnescape mid.reverse).map String.mk
    | _ => none
  | _ => none

/-- Shape of a `strftime('%d %B')` rendering: a zero-padded day, a space,
a month name. -/
def dayMonthRendered (s : String) : Prop :=
  ∃ d m : Nat, s = pad2 d ++ " " ++ monthName m

/-! Sample data for the witnesses. -/

def blobSigned : Blob :=
  ⟨"f/DT20250801_a.jpg", 1024, some "2025-08-01T00:00:00", none,
    some "image/jpeg", none, some "https://signed.example/a"⟩

def blobNoSign : Blob := ⟨"f/a.jpg", 2048, none, none, none, none, none⟩

def blobBadDate : Blob := ⟨"f/DT20251340.jpg", 7, none, none, none, none, none⟩

def blobFeb30 : Blob := ⟨"DT20250230_pic.png", 9, none, none, none, none, none⟩

def blobGoodDate : Blob :=
  ⟨"x/IMG_DT20250801_a.jpg", 3, none, none, none, none, some "https://signed.example/b"⟩

def blobBadDateSigned : Blob :=
  ⟨"f/DT20251340.jpg", 7, none, none, none, none, some "https://signed.example/c"⟩

def imgQuoteName : GalleryImage :=
  ⟨some "a\"b.jpg", some "https://u.example/img", 5, none, none, none, none⟩

def imgAllMissing : GalleryImage := ⟨none, none, 0, none, none, none, none⟩

def imgPlain : GalleryImage :=
  ⟨some "x.jpg", some "https://u.example/x", 10, some "2025-01-01T00:00:00",
    some "image/jpeg", some "20250101", some "01 January"⟩

/-! ### Order lemmas for the sort key -/

theorem lexLe_total : ∀ (a b : List Char), (lexLe a b || lexLe b a) = true := by
  intro a
  induction a with
  | nil => intro b; cases b <;> simp [lexLe]
  | cons x xs ih =>
    intro b
    cases b with
    | nil => simp [lexLe]
    | cons y ys =>
      rcases Nat.lt_trichotomy x.toNat y.toNat with h | h | h
      · simp [lexLe, h]
      · simp [lexLe, h, ih ys]
      · simp [lexLe, h, Nat.lt_asymm h]

theorem char_lt_iff_toNat_lt (c d : Char) : c < d ↔ c.toNat < d.toNat := by
  rw [Char.lt_iff_val_lt_val]
  exact Iff.rfl

theorem char_eq_of_toNat_eq (c d : Char) (h : c.toNat = d.toNat) : c = d := by
  have hv : c.val = d.val := by
    apply UInt32.eq_of_toBitVec_eq
    apply BitVec.eq_of_toNat_eq
    exact h
  exact Char.eq_of_val_eq hv

/-- The sort key comparison is the lexicographic order on char lists:
`lexLe a b` holds exactly when `a < b` in the lexicographic strict order
(Mathlib's `List.Lex` on code points) or `a = b`. -/
theorem lexLe_iff_lt_or_eq (a : List Char) : ∀ b, lexLe a b = true ↔ (a < b ∨ a = b) := by
  induction a with
  | nil =>
    intro b
    cases b with
    | nil => simp [lexLe]
    | cons y ys =>
      constructor
      · intro _
        exact Or.inl (List.nil_lt_cons y ys)
      · intro _
        rfl
  | cons x xs ih =>
    intro b
    cases b with
    | nil =>
      constructor
      · intro h
        simp [lexLe] at h
      · rintro (h | h)
        · exact absurd h (List.Lex.not_nil_right _ _)
        · exact absurd h (by simp)
    | cons y ys =>
      rcases Nat.lt_trichotomy x.toNat y.toNat with h1 | h1 | h1
      · constructor
        · intro _
          exact Or.inl (List.Lex.rel ((char_lt_iff_toNat_lt x y).mpr h1))
        · intro _
          simp [lexLe, h1]
      · have hxy : x = y := char_eq_of_toNat_eq x y h1
        subst hxy
        constructor
        · intro h
          have hx : lexLe xs ys = true := by simpa [lexLe] using h
          rcases (ih ys).mp hx with h' | h'
          · exact Or.inl (List.Lex.cons h')
          · exact Or.inr (by rw [h'])
        · intro h
          have htail : xs < ys ∨ xs = ys := by
            rcases h with h | h
            · exact Or.inl (List.Lex.cons_iff.mp h)
            · injection h with _ h2
              exact Or.inr h2
          simpa [lexLe] using (ih ys).mpr htail
      · constructor
        · intro h
          simp [lexLe, Nat.lt_asymm h1, h1] at h
        · rintro (h | h)
          · cases h with
            | cons htail => omega
            | rel hr =>
              have := (char_lt_iff_toNat_lt x y).mp hr
              omega
          · injection h with hh _
            rw [hh] at h1
            omega

theorem lexLe_imp_le {a b : List Char} (h : lexLe a b = true) : a ≤ b := by
  rcases (lexLe_iff_lt_or_eq a b).mp h with h' | h'
  · exact le_of_lt h'
  · exact le_of_eq h'

theorem lexLe_trans :
    ∀ (a b c : List Char), lexLe a b = true → lexLe b c = true → lexLe a c = true := by
  intro a
  induction a with
  | nil => intro b c _ _; simp [lexLe]
  | cons x xs ih =>
    intro b c hab hbc
    cases b with
    | nil => simp [lexLe] at hab
    | cons y ys =>
      cases c with
      | nil => simp [lexLe] at hbc
      | cons z zs =>
        simp only [lexLe] at hab hbc ⊢
        rcases Nat.lt_trichotomy x.toNat y.toNat with h1 | h1 | h1
        · rcases Nat.lt_trichotomy y.toNat z.toNat with h2 | h2 | h2
          · simp [show x.toNat < z.toNat by omega]
          · simp [show x.toNat < z.toNat by omega]
          · simp [Nat.lt_asymm h2, h2] at hbc
        · simp only [h1, lt_self_iff_false, if_false] at hab
          rcases Nat.lt_trichotomy y.toNat z.toNat with h2 | h2 | h2
          · simp [show x.toNat < z.toNat by omega]
          · simp only [h2, lt_self_iff_false, if_false] at hbc
            simp only [show ¬ x.toNat < z.toNat by omega, if_false,
              show ¬ z.toNat < x.toNat by omega]
            exact ih ys zs hab hbc
          · simp [Nat.lt_asymm h2, h2] at hbc
        · simp [Nat.lt_asymm h1, h1] at hab

/-! ### Claim theorems: listing, filtering, sorting -/

/-- C2: `get_image_list` returns a list sorted ascending by the
`filename` key under Python's code-point lexicographic string order, and
that list is a permutation of the image entries collected from the bucket
listing (the kept blobs, each turned into its metadata dictionary). -/
theorem get_image_list_sorted_perm (bucket_name : String) (blobs : List Blob) :
    (get_image_list bucket_name blobs).Pairwise
      (fun a b => lexLe a.filename.data b.filename.data = true) ∧
    (get_image_list bucket_name blobs).Pairwise
      (fun a b => a.filename ≤ b.filename) ∧
    (get_image_list bucket_name blobs).Perm
      ((blobs.filter (fun b => isImageName b.name)).map (mkImageInfo bucket_name)) := by
  have hsorted : (get_image_list bucket_name blobs).Pairwise
      (fun a b => lexLe a.filename.data b.filename.data = true) :=
    @List.sorted_mergeSort ImageInfo
      (fun a b => lexLe a.filename.data b.filename.data)
      (fun a b c hab hbc => lexLe_trans _ _ _ hab hbc)
      (fun a b => lexLe_total _ _) _
  refine ⟨hsorted, hsorted.imp ?_, List.mergeSort_perm _ _⟩
  intro a b h
  exact String.le_iff_toList_le.mpr (lexLe_imp_le h)

/-- C5: an entry is in the result of `get_image_list` exactly when it is
the metadata dictionary of a listed blob whose name, lowercased, ends
with one of the image extensions; non-image objects are excluded. -/
theorem get_image_list_mem_iff (bucket_name : String) (blobs : List Blob)
    (info : ImageInfo) :
    info ∈ get_image_list bucket_name blobs ↔
      ∃ b, b ∈ blobs ∧ isImageName b.name = true ∧ info = mkImageInfo bucket_name b := by
  unfold get_image_list
  rw [(List.mergeSort_perm _ _).mem_iff]
  simp only [List.mem_map, List.mem_filter]
  constructor
  · rintro ⟨b, ⟨hb, him⟩, heq⟩
    exact ⟨b, hb, him, heq.symm⟩
  · rintro ⟨b, hb, him, heq⟩
    exact ⟨b, ⟨hb, him⟩, heq.symm⟩

/-! ### Page-count arithmetic -/

/-- The script's `(n + p - 1) // p` is the ceiling of `n / p` for a
positive `p`. -/
theorem fdiv_pages_eq_ceil (n : Nat) (p : Int) (hp : 1 ≤ p) :
    Int.fdiv ((n : Int) + p - 1) p = ⌈(n : ℚ) / (p : ℚ)⌉ := by
  have hp0 : (0 : Int) < p := hp
  rw [Int.fdiv_eq_ediv _ (le_of_lt hp0)]
  set q : Int := ((n : Int) + p - 1) / p with hq
  set r : Int := ((n : Int) + p - 1) % p with hr
  have hmod : p * q + r = (n : Int) + p - 1 := Int.ediv_add_emod _ _
  have hr0 : 0 ≤ r := Int.emod_nonneg _ (ne_of_gt hp0)
  have hrp : r < p := Int.emod_lt_of_pos _ hp0
  have h1 : (n : Int) ≤ p * q := by linarith
  have h2 : p * q - p < (n : Int) := by linarith
  have hpQ : (0 : ℚ) < (p : ℚ) := by exact_mod_cast hp0
  symm
  rw [Int.ceil_eq_iff]
  constructor
  · rw [lt_div_iff₀ hpQ]
    have : ((p : ℚ) * q - p) < (n : ℚ) := by exact_mod_cast h2
    nlinarith
  · rw [div_le_iff₀ hpQ]
    have : ((n : ℚ)) ≤ (p : ℚ) * q := by exact_mod_cast h1
    nlinarith

/-- C1: for every image list and every `images_per_page ≥ 1`,
`generate_html_gallery` computes `total_pages` by the expression
`(len(images) + images_per_page - 1) // images_per_page`, which is the
ceiling of `len(images) / images_per_page`; an empty list gives 0 pages
and a list of exactly `k * images_per_page` images gives `k` pages. -/
theorem generate_html_gallery_total_pages (images : List GalleryImage)
    (images_per_page : Int) (title : String) (hp : 1 ≤ images_per_page) :
    ∃ r, generate_html_gallery images images_per_page title = Except.ok r ∧
      r.total_pages =
        Int.fdiv ((images.length : Int) + images_per_page - 1) images_per_page ∧
      r.total_pages = ⌈(images.length : ℚ) / (images_per_page : ℚ)⌉ ∧
      (images = [] → r.total_pages = 0) ∧
      (∀ k : Nat, images.length = k * images_per_page.toNat → r.total_pages = k) := by
  have hne : images_per_page ≠ 0 := by omega
  have hceil := fdiv_pages_eq_ceil images.length images_per_page hp
  refine ⟨⟨title, images.length, images_per_page,
      Int.fdiv ((images.length : Int) + images_per_page - 1) images_per_page,
      imagesJsonDump images⟩,
    by simp [generate_html_gallery, pyFloorDiv, hne], rfl, hceil, ?_, ?_⟩
  · intro h
    subst h
    show Int.fdiv ((([] : List GalleryImage).length : Int) + images_per_page - 1)
        images_per_page = 0
    rw [hceil]
    simp
  · intro k hk
    show Int.fdiv ((images.length : Int) + images_per_page - 1) images_per_page = (k : Int)
    rw [hceil, hk]
    have htn : ((images_per_page.toNat : Nat) : ℚ) = (images_per_page : ℚ) := by
      exact_mod_cast Int.toNat_of_nonneg (by omega : (0 : Int) ≤ images_per_page)
    have hcast : ((k * images_per_page.toNat : Nat) : ℚ) = (k : ℚ) * (images_per_page : ℚ) := by
      push_cast
      rw [htn]
    rw [hcast, mul_div_assoc, div_self (ne_of_gt (by exact_mod_cast hp)), mul_one,
      Int.ceil_natCast]

theorem generate_html_gallery_total_pages_witness :
    (1 : Int) ≤ 2 ∧
    ∃ r, generate_html_gallery [imgPlain, imgAllMissing, imgQuoteName] 2 "T" = Except.ok r ∧
      r.total_pages = Int.fdiv (((3 : Nat) : Int) + 2 - 1) 2 ∧
      r.total_pages = ⌈((3 : Nat) : ℚ) / ((2 : Int) : ℚ)⌉ ∧
      ([imgPlain, imgAllMissing, imgQuoteName] = ([] : List GalleryImage) → r.total_pages = 0) ∧
      (∀ k : Nat, 3 = k * (2 : Int).toNat → r.total_pages = k) :=
  ⟨by norm_num,
    generate_html_gallery_total_pages [imgPlain, imgAllMissing, imgQuoteName] 2 "T" (by norm_num)⟩

/-- C6: for `images_per_page ≥ 1` the values rendered into the page are
the expected count, pagination metadata and ordering: `total_images` is
`len(images)`, `total_pages` the ceiling page count, `images_per_page`
the argument, and the embedded JSON array lists the entries in exactly
the input order. -/
theorem generate_html_gallery_render (images : List GalleryImage)
    (images_per_page : Int) (title : String) (hp : 1 ≤ images_per_page) :
    ∃ r, generate_html_gallery images images_per_page title = Except.ok r ∧
      r.title = title ∧
      r.total_images = images.length ∧
      r.images_per_page = images_per_page ∧
      r.total_pages = ⌈(images.length : ℚ) / (images_per_page : ℚ)⌉ ∧
      r.images_json = jdumpArr ((images_for_js images).map jdumpObj) ∧
      (images_for_js images).length = images.length ∧
      (∀ i : Nat, (images_for_js images)[i]? = (images[i]?).map toJsEntry) := by
  have hne : images_per_page ≠ 0 := by omega
  have hceil := fdiv_pages_eq_ceil images.length images_per_page hp
  refine ⟨⟨title, images.length, images_per_page,
      Int.fdiv ((images.length : Int) + images_per_page - 1) images_per_page,
      imagesJsonDump images⟩,
    by simp [generate_html_gallery, pyFloorDiv, hne], rfl, rfl, rfl, hceil, rfl,
    by simp [images_for_js], ?_⟩
  intro i
  simp [images_for_js, List.getElem?_map]

theorem generate_html_gallery_render_witness :
    (1 : Int) ≤ 3 ∧
    ∃ r, generate_html_gallery [imgPlain, imgQuoteName] 3 "Gallery" = Except.ok r ∧
      r.title = "Gallery" ∧
      r.total_images = [imgPlain, imgQuoteName].length ∧
      r.images_per_page = 3 ∧
      r.total_pages = ⌈(([imgPlain, imgQuoteName].length : Nat) : ℚ) / ((3 : Int) : ℚ)⌉ ∧
      r.images_json = jdumpArr ((images_for_js [imgPlain, imgQuoteName]).map jdumpObj) ∧
      (images_for_js [imgPlain, imgQuoteName]).length = [imgPlain, imgQuoteName].length ∧
      (∀ i : Nat,
        (images_for_js [imgPlain, imgQuoteName])[i]? =
          ([imgPlain, imgQuoteName][i]?).map toJsEntry) :=
  ⟨by norm_num, generate_html_gallery_render [imgPlain, imgQuoteName] 3 "Gallery" (by norm_num)⟩

/-- C8: with `images_per_page = 0` the page-count expression divides by
zero (a `ZeroDivisionError`), and nothing guards it — the computation is
well-defined exactly when the divisor is non-zero, and for every
`images_per_page ≥ 1` it succeeds. -/
theorem generate_html_gallery_zero_division :
    (∀ (images : List GalleryImage) (title : String),
      generate_html_gallery images 0 title =
        Except.error "ZeroDivisionError: integer division or modulo by zero") ∧
    (∀ (images : List GalleryImage) (images_per_page : Int) (title : String),
      images_per_page ≠ 0 →
        ∃ r, generate_html_gallery images images_per_page title = Except.ok r) := by
  constructor
  · intro images title
    simp [generate_html_gallery, pyFloorDiv]
  · intro images images_per_page title hne
    exact ⟨⟨title, images.length, images_per_page,
        Int.fdiv ((images.length : Int) + images_per_page - 1) images_per_page,
        imagesJsonDump images⟩,
      by simp [generate_html_gallery, pyFloorDiv, hne]⟩

theorem generate_html_gallery_zero_division_witness :
    generate_html_gallery [imgPlain] 0 "T" =
        Except.error "ZeroDivisionError: integer division or modulo by zero" ∧
    ((0 : Int) ≠ (3 : Int) ∧
      ∃ r, generate_html_gallery [imgPlain] 3 "T" = Except.ok r) :=
  ⟨generate_html_gallery_zero_division.1 [imgPlain] "T",
    by norm_num,
    generate_html_gallery_zero_division.2 [imgPlain] 3 "T" (by norm_num)⟩

/-- C3 (amended): `public_url` is the signed URL when
`generate_signed_url` returns one; when (and, unless the signer happens
to return the fallback string itself, only when) it raises, `public_url`
is the fallback `https://storage.googleapis.com/{bucket_name}/{blob.name}`.
The signing `try/except` is not the only error-recovery point of the
listing logic: the bare `except` around `strptime` is a second one,
which recovers from a failed date parse by substituting the raw
eight-digit string for `date_display` (last conjunct) instead of letting
the exception propagate. -/
theorem mkImageInfo_public_url (bucket_name : String) (b : Blob) :
    (∀ u, b.signed_url = some u → (mkImageInfo bucket_name b).public_url = u) ∧
    (b.signed_url = none →
      (mkImageInfo bucket_name b).public_url = fallbackUrl bucket_name b.name) ∧
    ((∀ u, b.signed_url = some u → u ≠ fallbackUrl bucket_name b.name) →
      ((mkImageInfo bucket_name b).public_url = fallbackUrl bucket_name b.name ↔
        b.signed_url = none)) ∧
    (∀ g, findDT (basename b.name).data = some g → validYMD8 g = false →
      (mkImageInfo bucket_name b).date_str = some (String.mk g) ∧
      (mkImageInfo bucket_name b).date_display = String.mk g) := by
  have hdate : ∀ g, findDT (basename b.name).data = some g → validYMD8 g = false →
      (mkImageInfo bucket_name b).date_str = some (String.mk g) ∧
      (mkImageInfo bucket_name b).date_display = String.mk g := by
    intro g hg hv
    constructor <;> simp [mkImageInfo, hg, hv]
  cases hb : b.signed_url with
  | some u =>
    refine ⟨?_, ?_, ?_, hdate⟩
    · intro u' hu'
      injection hu' with h
      subst h
      simp [mkImageInfo, hb]
    · intro h
      exact Option.noConfusion h
    · intro hne
      constructor
      · intro hurl
        have hpu : (mkImageInfo bucket_name b).public_url = u := by simp [mkImageInfo, hb]
        rw [hpu] at hurl
        exact absurd hurl (hne u rfl)
      · intro h
        exact Option.noConfusion h
  | none =>
    refine ⟨?_, ?_, ?_, hdate⟩
    · intro u' hu'
      exact Option.noConfusion hu'
    · intro _
      simp [mkImageInfo, hb]
    · intro _
      simp [mkImageInfo, hb]

theorem mkImageInfo_public_url_witness :
    (mkImageInfo "bkt" blobSigned).public_url = "https://signed.example/a" ∧
    (mkImageInfo "bkt" blobNoSign).public_url = fallbackUrl "bkt" "f/a.jpg" ∧
    (mkImageInfo "bkt" blobBadDateSigned).date_display = String.mk "20251340".data :=
  ⟨(mkImageInfo_public_url "bkt" blobSigned).1 "https://signed.example/a" rfl,
   (mkImageInfo_public_url "bkt" blobNoSign).2.1 rfl,
   ((mkImageInfo_public_url "bkt" blobBadDateSigned).2.2.2 "20251340".data
     (by decide) (by decide)).2⟩

/-- C3 as stated fails on the code: the signing `try/except` is not the
only error-recovery point of the listing-and-rendering logic.  For the
blob `f/DT20251340.jpg` whose signing call succeeds, the URL fallback is
not taken (`public_url` is the signed URL, not the fallback string), yet
the listing still recovers from a raised exception: `strptime` fails on
month 13 and the bare `except` of the date-parsing step substitutes the
raw digit string for `date_display` instead of letting the error
propagate — a second, distinct recovery point. -/
theorem signing_fallback_not_sole_recovery :
    (mkImageInfo "bkt" blobBadDateSigned).public_url = "https://signed.example/c" ∧
    (mkImageInfo "bkt" blobBadDateSigned).public_url ≠
      fallbackUrl "bkt" blobBadDateSigned.name ∧
    findDT (basename blobBadDateSigned.name).data = some "20251340".data ∧
    validYMD8 "20251340".data = false ∧
    (mkImageInfo "bkt" blobBadDateSigned).date_str = some "20251340" ∧
    (mkImageInfo "bkt" blobBadDateSigned).date_display = "20251340" :=
  ⟨by decide, by decide, by decide, by decide, by decide, by decide⟩

/-- C9: in every embedded entry the `filename`, `public_url`,
`date_str`, `content_type` and `date_display` values are strings, never
`null`; missing inputs are replaced by the documented defaults, and only
the `created` value can be `null` (exactly when `created` is missing). -/
theorem toJsEntry_fields (img : GalleryImage) :
    (∀ k v, (k, v) ∈ toJsEntry img → v = JValue.null → k = "created") ∧
    (∃ s, (toJsEntry img).lookup "filename" = some (JValue.str s)) ∧
    (∃ s, (toJsEntry img).lookup "public_url" = some (JValue.str s)) ∧
    (∃ s, (toJsEntry img).lookup "date_str" = some (JValue.str s)) ∧
    (∃ s, (toJsEntry img).lookup "content_type" = some (JValue.str s)) ∧
    (∃ s, (toJsEntry img).lookup "date_display" = some (JValue.str s)) ∧
    (img.filename = none → (toJsEntry img).lookup "filename" = some (JValue.str "")) ∧
    (img.public_url = none → (toJsEntry img).lookup "public_url" = some (JValue.str "")) ∧
    (img.date_str = none → (toJsEntry img).lookup "date_str" = some (JValue.str "")) ∧
    (img.content_type = none →
      (toJsEntry img).lookup "content_type" = some (JValue.str "image/unknown")) ∧
    (img.date_display = none →
      (toJsEntry img).lookup "date_display" = some (JValue.str "Unknown Date")) ∧
    ((toJsEntry img).lookup "created" = some JValue.null ↔ img.created = none) := by
  refine ⟨?_, ⟨_, rfl⟩, ⟨_, rfl⟩, ⟨_, rfl⟩, ⟨_, rfl⟩, ⟨_, rfl⟩, ?_, ?_, ?_, ?_, ?_, ?_⟩
  · intro k v hmem hv
    subst hv
    cases hc : img.created with
    | none => simp [toJsEntry, hc] at hmem; exact hmem
    | some c => simp [toJsEntry, hc] at hmem
  · intro h
    simp [toJsEntry, List.lookup, h, strTruthy]
  · intro h
    simp [toJsEntry, List.lookup, h, strTruthy, strOr]
  · intro h
    simp [toJsEntry, List.lookup, h, strOr]
  · intro h
    simp [toJsEntry, List.lookup, h, strOr]
  · intro h
    simp [toJsEntry, List.lookup, h, strOr]
  · cases hc : img.created <;> simp [toJsEntry, List.lookup, hc]

theorem toJsEntry_fields_witness :
    ((toJsEntry imgAllMissing).lookup "filename" = some (JValue.str "")) ∧
    ((toJsEntry imgAllMissing).lookup "public_url" = some (JValue.str "")) ∧
    ((toJsEntry imgAllMissing).lookup "date_str" = some (JValue.str "")) ∧
    ((toJsEntry imgAllMissing).lookup "content_type" = some (JValue.str "image/unknown")) ∧
    ((toJsEntry imgAllMissing).lookup "date_display" = some (JValue.str "Unknown Date")) ∧
    ((toJsEntry imgAllMissing).lookup "created" = some JValue.null) :=
  ⟨(toJsEntry_fields imgAllMissing).2.2.2.2.2.2.1 rfl,
   (toJsEntry_fields imgAllMissing).2.2.2.2.2.2.2.1 rfl,
   (toJsEntry_fields imgAllMissing).2.2.2.2.2.2.2.2.1 rfl,
   (toJsEntry_fields imgAllMissing).2.2.2.2.2.2.2.2.2.1 rfl,
   (toJsEntry_fields imgAllMissing).2.2.2.2.2.2.2.2.2.2.1 rfl,
   ((toJsEntry_fields imgAllMissing).2.2.2.2.2.2.2.2.2.2.2).mpr rfl⟩

/-! ### The JSON string layer round trip, and its pre-escaping defect -/

theorem jsonUnescape_cons_plain (c : Char) (rest : List Char)
    (h1 : ¬ c = '"') (h2 : ¬ c = '\\') :
    jsonUnescape (c :: rest) = (jsonUnescape rest).map (fun l => c :: l) := by
  cases rest with
  | nil => simp [jsonUnescape, beq_iff_eq, h1, h2]
  | cons e rest2 => simp [jsonUnescape, beq_iff_eq, h1, h2]

theorem jsonUnescape_flatMap (l : List Char) :
    jsonUnescape (l.flatMap jsonEscapeChar) = some l := by
  induction l with
  | nil => rfl
  | cons c cs ih =>
    rw [List.flatMap_cons]
    by_cases h1 : c = '"'
    · subst h1
      simp [jsonEscapeChar, jsonUnescape, unescapeChar, escapeTable, List.lookup, ih]
    · by_cases h2 : c = '\\'
      · subst h2
        simp [jsonEscapeChar, jsonUnescape, unescapeChar, escapeTable, List.lookup, ih]
      · rw [show jsonEscapeChar c = [c] by simp [jsonEscapeChar, beq_iff_eq, h1, h2],
          List.singleton_append, jsonUnescape_cons_plain c _ h1 h2, ih]
        rfl

theorem parseJsonStringLit_jsonQuote (s : String) :
    parseJsonStringLit (jsonQuote s) = some s := by
  have hdata : (jsonQuote s).data = '"' :: (s.data.flatMap jsonEscapeChar ++ ['"']) := by
    simp [jsonQuote, String.data_append]
  rw [parseJsonStringLit, hdata]
  simp only [List.reverse_append, List.reverse_cons, List.reverse_nil, List.nil_append,
    List.cons_append, List.reverse_reverse, jsonUnescape_flatMap, Option.map_some]
  cases s
  rfl

/-- C7 fails on the code: the script pre-escapes `filename` and
`public_url` by hand and then hands them to `json.dumps`, which escapes
again.  The embedded JSON string literal therefore parses back to the
pre-escaped variant, not to the original: for the filename `a"b.jpg` the
entry stores `a\"b.jpg`, parsing the emitted literal returns exactly the
stored string (the string layer of `json.dumps` alone round-trips), and
that differs from the original filename. -/
theorem embedded_json_not_roundtrip :
    imgQuoteName.filename = some "a\"b.jpg" ∧
    (toJsEntry imgQuoteName).lookup "filename" = some (JValue.str "a\\\"b.jpg") ∧
    (∀ s, parseJsonStringLit (jdumpValue (JValue.str s)) = some s) ∧
    "a\\\"b.jpg" ≠ "a\"b.jpg" := by
  refine ⟨rfl, by decide, ?_, by decide⟩
  intro s
  exact parseJsonStringLit_jsonQuote s

/-! ### The `DT` + eight digits filename convention -/

theorem matchDT8_eq_some_iff (l g : List Char) :
    matchDT8 l = some g ↔
      ∃ rest, l = 'D' :: 'T' :: (g ++ rest) ∧ g.length = 8 ∧ g.all isDig = true := by
  constructor
  · intro h
    cases l with
    | nil => simp [matchDT8] at h
    | cons c1 t =>
      cases t with
      | nil => simp [matchDT8] at h
      | cons c2 rest =>
        simp only [matchDT8] at h
        by_cases hc : (c1 == 'D' && c2 == 'T' && ((rest.take 8).length == 8)
            && (rest.take 8).all isDig) = true
        · rw [if_pos hc] at h
          injection h with hg
          simp only [Bool.and_eq_true, beq_iff_eq] at hc
          obtain ⟨⟨⟨hc1, hc2⟩, hlen⟩, hdig⟩ := hc
          subst hc1
          subst hc2
          refine ⟨rest.drop 8, ?_, by rw [← hg]; exact hlen, by rw [← hg]; exact hdig⟩
          rw [← hg, List.take_append_drop]
        · rw [if_neg hc] at h
          exact Option.noConfusion h
  · rintro ⟨rest, rfl, hlen, hdig⟩
    have htake : (g ++ rest).take 8 = g := by rw [← hlen, List.take_left]
    simp [matchDT8, htake, hlen, hdig]

theorem findDT_eq_some {l g : List Char} (h : findDT l = some g) :
    ∃ i, matchDT8 (l.drop i) = some g ∧ ∀ j, j < i → matchDT8 (l.drop j) = none := by
  induction l with
  | nil => simp [findDT] at h
  | cons c cs ih =>
    cases hm : matchDT8 (c :: cs) with
    | some g0 =>
      have hf : findDT (c :: cs) = some g0 := by simp [findDT, hm]
      rw [hf] at h
      injection h with hgg
      subst hgg
      exact ⟨0, by simpa using hm, fun j hj => absurd hj (Nat.not_lt_zero j)⟩
    | none =>
      have hf : findDT (c :: cs) = findDT cs := by simp [findDT, hm]
      rw [hf] at h
      obtain ⟨i, h1, h2⟩ := ih h
      refine ⟨i + 1, by simpa using h1, ?_⟩
      intro j hj
      cases j with
      | zero => simpa using hm
      | succ j' => simpa using h2 j' (by omega)

theorem findDT_eq_none {l : List Char} (h : findDT l = none) :
    ∀ i, matchDT8 (l.drop i) = none := by
  induction l with
  | nil => intro i; simp [matchDT8]
  | cons c cs ih =>
    intro i
    have hm : matchDT8 (c :: cs) = none := by
      cases hm' : matchDT8 (c :: cs) with
      | none => rfl
      | some g => simp [findDT, hm'] at h
    have hf : findDT cs = none := by simpa [findDT, hm] using h
    cases i with
    | zero => simpa using hm
    | succ i' => simpa using ih hf i'

/-- C4 (amended): when the basename contains `DT` followed by eight
digits, `date_str` is the first (leftmost) such eight-digit group, and
`date_display` is that date rendered as zero-padded day plus full month
name when the digits form a valid calendar date, and the raw digit
string itself otherwise; when there is no such occurrence, `date_str` is
`None` and `date_display` is `"Unknown Date"`. -/
theorem mkImageInfo_date_convention (bucket_name : String) (b : Blob) :
    ((∃ pre g post, (basename b.name).data = pre ++ 'D' :: 'T' :: (g ++ post) ∧
        g.length = 8 ∧ g.all isDig = true) →
      ∃ pre g post, (basename b.name).data = pre ++ 'D' :: 'T' :: (g ++ post) ∧
        g.length = 8 ∧ g.all isDig = true ∧
        (∀ pre' g' post',
          (basename b.name).data = pre' ++ 'D' :: 'T' :: (g' ++ post') →
          g'.length = 8 → g'.all isDig = true → pre.length ≤ pre'.length) ∧
        (mkImageInfo bucket_name b).date_str = some (String.mk g) ∧
        (mkImageInfo bucket_name b).date_display =
          (if validYMD8 g then renderDate g else String.mk g)) ∧
    ((¬ ∃ pre g post, (basename b.name).data = pre ++ 'D' :: 'T' :: (g ++ post) ∧
        g.length = 8 ∧ g.all isDig = true) →
      (mkImageInfo bucket_name b).date_str = none ∧
      (mkImageInfo bucket_name b).date_display = "Unknown Date") := by
  constructor
  · rintro ⟨pre, g0, post, hdec, hlen, hdig⟩
    have hmatch : matchDT8 (((basename b.name).data).drop pre.length) = some g0 := by
      rw [hdec, List.drop_left]
      exact (matchDT8_eq_some_iff _ _).mpr ⟨post, rfl, hlen, hdig⟩
    cases hf : findDT (basename b.name).data with
    | none =>
      rw [findDT_eq_none hf pre.length] at hmatch
      exact Option.noConfusion hmatch
    | some gfound =>
      obtain ⟨i, h1, h2⟩ := findDT_eq_some hf
      obtain ⟨rest, hdrop, hleni, hdigi⟩ := (matchDT8_eq_some_iff _ _).mp h1
      refine ⟨((basename b.name).data).take i, gfound, rest, ?_, hleni, hdigi, ?_, ?_, ?_⟩
      · rw [← hdrop]
        exact (List.take_append_drop i _).symm
      · intro pre' g' post' hdec' hlen' hdig'
        have hm' : matchDT8 (((basename b.name).data).drop pre'.length) = some g' := by
          rw [hdec', List.drop_left]
          exact (matchDT8_eq_some_iff _ _).mpr ⟨post', rfl, hlen', hdig'⟩
        by_contra hcon
        push_neg at hcon
        have hlt : pre'.length < i := by
          have := List.length_take i (basename b.name).data
          omega
        rw [h2 pre'.length hlt] at hm'
        exact Option.noConfusion hm'
      · simp [mkImageInfo, hf]
      · simp [mkImageInfo, hf]
  · intro hno
    cases hf : findDT (basename b.name).data with
    | some g0 =>
      exfalso
      obtain ⟨i, h1, _⟩ := findDT_eq_some hf
      obtain ⟨rest, hdrop, hleni, hdigi⟩ := (matchDT8_eq_some_iff _ _).mp h1
      exact hno ⟨((basename b.name).data).take i, g0, rest,
        by rw [← hdrop]; exact (List.take_append_drop i _).symm, hleni, hdigi⟩
    | none =>
      constructor <;> simp [mkImageInfo, hf]

theorem mkImageInfo_date_convention_witness :
    (∃ pre g post, (basename blobGoodDate.name).data = pre ++ 'D' :: 'T' :: (g ++ post) ∧
      g.length = 8 ∧ g.all isDig = true) ∧
    (∃ pre g post, (basename blobGoodDate.name).data = pre ++ 'D' :: 'T' :: (g ++ post) ∧
      g.length = 8 ∧ g.all isDig = true ∧
      (∀ pre' g' post',
        (basename blobGoodDate.name).data = pre' ++ 'D' :: 'T' :: (g' ++ post') →
        g'.length = 8 → g'.all isDig = true → pre.length ≤ pre'.length) ∧
      (mkImageInfo "bkt" blobGoodDate).date_str = some (String.mk g) ∧
      (mkImageInfo "bkt" blobGoodDate).date_display =
        (if validYMD8 g then renderDate g else String.mk g)) :=
  ⟨⟨"IMG_".data, "20250801".data, "_a.jpg".data, by decide, by decide, by decide⟩,
   (mkImageInfo_date_convention "bkt" blobGoodDate).1
     ⟨"IMG_".data, "20250801".data, "_a.jpg".data, by decide, by decide, by decide⟩⟩

/-- C4 as stated fails on the code: the basename `DT20251340.jpg`
contains `DT` followed by eight digits, `date_str` is that group, but
month 13 makes `strptime` raise, so `date_display` is the raw digit
string `"20251340"`, which is not a zero-padded-day-plus-month-name
rendering. -/
theorem date_display_not_rendered_on_invalid :
    (mkImageInfo "bkt" blobBadDate).date_str = some "20251340" ∧
    (mkImageInfo "bkt" blobBadDate).date_display = "20251340" ∧
    ¬ dayMonthRendered "20251340" := by
  refine ⟨by decide, by decide, ?_⟩
  rintro ⟨d, m, h⟩
  have hmem : ' ' ∈ "20251340".data := by
    rw [h, String.data_append, String.data_append]
    exact List.mem_append.mpr (Or.inl (List.mem_append.mpr (Or.inr (by decide))))
  exact absurd hmem (by decide)

/-- C10: when the first `DT`-plus-eight-digits group of the basename is
not a valid calendar date, `date_str` is still those eight digits and
`date_display` is the raw eight-digit string itself, not
`"Unknown Date"`. -/
theorem mkImageInfo_invalid_date (bucket_name : String) (b : Blob) (g : List Char)
    (h1 : findDT (basename b.name).data = some g) (h2 : validYMD8 g = false) :
    (mkImageInfo bucket_name b).date_str = some (String.mk g) ∧
    (mkImageInfo bucket_name b).date_display = String.mk g := by
  constructor <;> simp [mkImageInfo, h1, h2]

theorem mkImageInfo_invalid_date_witness :
    (findDT (basename blobFeb30.name).data = some "20250230".data ∧
      validYMD8 "20250230".data = false) ∧
    (mkImageInfo "bkt" blobFeb30).date_str = some (String.mk "20250230".data) ∧
    (mkImageInfo "bkt" blobFeb30).date_display = String.mk "20250230".data :=
  ⟨⟨by decide, by decide⟩,
    mkImageInfo_invalid_date "bkt" blobFeb30 "20250230".data (by decide) (by decide)⟩

end GcsGallery
